import Mathlib

/-!
Shallow embedding of the SteelMount captcha service core, translated from
the Go sources, together with theorems settling the specification claims.

Conventions of the embedding:
* Go `time.Time` and `time.Duration` are both modelled as `Int`
  (nanosecond ticks); `t.After(u)` is `t > u` and `t.Sub(u)` is `t - u`.
* Go maps (`map[string]V`) are modelled as association lists
  `List (String × V)` with at most one binding per key; `mget`, `mset`
  and `mdel` model indexing, assignment and `delete`.
* Go `int`/`int32`/`int64` values that stay small and non-negative in
  every reachable state (counters, confidence percentages) are modelled
  as `Nat`; values compared or subtracted freely are modelled as `Int`.
* A Go function that can panic (integer division by zero) returns an
  `Option`, with `none` at exactly the panicking inputs.
-/

namespace SteelMount

/-- Association-list model of Go map indexing `m[k]`. -/
def mget {α : Type} : List (String × α) → String → Option α
  | [], _ => none
  | (k, v) :: rest, key => if k = key then some v else mget rest key

/-- Association-list model of Go map assignment `m[k] = v`. -/
def mset {α : Type} : List (String × α) → String → α → List (String × α)
  | [], key, v => [(key, v)]
  | (k, w) :: rest, key, v =>
      if k = key then (key, v) :: rest else (k, w) :: mset rest key v

/-- Association-list model of Go `delete(m, k)`. -/
def mdel {α : Type} : List (String × α) → String → List (String × α)
  | [], _ => []
  | (k, w) :: rest, key =>
      if k = key then mdel rest key else (k, w) :: mdel rest key

theorem mget_mset_self {α : Type} (m : List (String × α)) (k : String) (v : α) :
    mget (mset m k v) k = some v := by
  induction m with
  | nil => simp [mget, mset]
  | cons hd tl ih =>
    obtain ⟨k1, v1⟩ := hd
    by_cases h : k1 = k
    · simp [mget, mset, h]
    · simp [mget, mset, h, ih]

/-- Go durations used by the sources. -/
def minuteNs : Int := 60000000000

/-- One hour in nanoseconds (`time.Hour`). -/
def hourNs : Int := 3600000000000

/-!
## Base rate limiter (`internal/security/rate_limiter.go`)

`LocalLimit` and `checkLocalLimit` translate the local (non-Redis) path of
`RateLimiter.Allow`.  The Go code keeps a single counter per key together
with the time of the last reset: a fixed-window counter.
-/

structure LocalLimit where
  count : Int
  lastReset : Int
  window : Int
  deriving DecidableEq, Repr

abbrev LocalLimits := List (String × LocalLimit)

/-- Translation of `RateLimiter.checkLocalLimit`: on a missing key or an
elapsed window a fresh bucket with count 1 is stored and the request is
allowed; otherwise the request is allowed (incrementing the counter)
exactly when the counter is below `limit`. -/
def checkLocalLimit (m : LocalLimits) (key : String) (limit window now : Int) :
    Bool × LocalLimits :=
  match mget m key with
  | none => (true, mset m key ⟨1, now, window⟩)
  | some l =>
      if now - l.lastReset ≥ window then
        (true, mset m key ⟨1, now, window⟩)
      else if l.count ≥ limit then
        (false, m)
      else
        (true, mset m key ⟨l.count + 1, l.lastReset, l.window⟩)

/-- Run a sequence of `checkLocalLimit` calls for one key at the given
times, returning the final state and the times of the allowed calls. -/
def localRun (key : String) (limit window : Int) (m : LocalLimits) :
    List Int → LocalLimits × List Int
  | [] => (m, [])
  | t :: ts =>
      let r := checkLocalLimit m key limit window t
      let rest := localRun key limit window r.2 ts
      (rest.1, if r.1 then t :: rest.2 else rest.2)

/-- Times of the allowed calls when the base limiter starts empty. -/
def localAllowedTimes (key : String) (limit window : Int) (ts : List Int) : List Int :=
  (localRun key limit window [] ts).2

/-- Membership test for the half-open interval `(a, a + window]`, the
window-sized sub-interval used to state sliding-window tightness. -/
def inWin (window a t : Int) : Bool :=
  decide (a < t) && decide (t ≤ a + window)

/-!
## Optimized rate limiter (sliding window variant)

`OptimizedLocalLimit`, `checkSlidingWindow` and `checkOptimizedLocalLimit`
translate the local path of `OptimizedRateLimiter.Allow`: a true sliding
window over the timestamps of the accepted requests.
-/

structure OptimizedLocalLimit where
  count : Int
  lastReset : Int
  window : Int
  requests : List Int
  deriving DecidableEq, Repr

/-- Translation of `OptimizedLocalLimit.checkSlidingWindow`: timestamps not
strictly after `now - window` are dropped (`reqTime.After(cutoff)`); if
fewer than `limit` remain, `now` is appended and the call is allowed. -/
def checkSlidingWindow (ol : OptimizedLocalLimit) (now limit window : Int) :
    Bool × OptimizedLocalLimit :=
  let valid := ol.requests.filter (fun t => now - window < t)
  if (valid.length : Int) < limit then
    (true, ⟨(valid.length : Int) + 1, now, ol.window, valid ++ [now]⟩)
  else
    (false, ⟨ol.count, ol.lastReset, ol.window, valid⟩)

abbrev OptimizedLocalLimits := List (String × OptimizedLocalLimit)

/-- Translation of `OptimizedRateLimiter.checkOptimizedLocalLimit`: a
missing key gets a fresh bucket with an empty timestamp slice, then the
bucket is stepped by `checkSlidingWindow` and stored back. -/
def checkOptimizedLocalLimit (m : OptimizedLocalLimits) (key : String)
    (limit window now : Int) : Bool × OptimizedLocalLimits :=
  let ol : OptimizedLocalLimit :=
    match mget m key with
    | none => ⟨0, now, window, []⟩
    | some l => l
  let r := checkSlidingWindow ol now limit window
  (r.1, mset m key r.2)

/-- Run a sequence of optimized `Allow` calls for one key, returning the
final state and the times of the allowed calls. -/
def optRun (key : String) (limit window : Int) (m : OptimizedLocalLimits) :
    List Int → OptimizedLocalLimits × List Int
  | [] => (m, [])
  | t :: ts =>
      let r := checkOptimizedLocalLimit m key limit window t
      let rest := optRun key limit window r.2 ts
      (rest.1, if r.1 then t :: rest.2 else rest.2)

/-- Times of the allowed calls when the optimized limiter starts empty. -/
def optAllowedTimes (key : String) (limit window : Int) (ts : List Int) : List Int :=
  (optRun key limit window [] ts).2

/-- Bucket-level run of `checkSlidingWindow`, used to reason about a single
key of the optimized limiter. -/
def slidingRun (limit window : Int) (ol : OptimizedLocalLimit) :
    List Int → OptimizedLocalLimit × List Int
  | [] => (ol, [])
  | t :: ts =>
      let r := checkSlidingWindow ol t limit window
      let rest := slidingRun limit window r.2 ts
      (rest.1, if r.1 then t :: rest.2 else rest.2)

theorem slidingRun_congr (limit window : Int) (ts : List Int) :
    ∀ ol ol2 : OptimizedLocalLimit, ol.requests = ol2.requests →
      (slidingRun limit window ol ts).2 = (slidingRun limit window ol2 ts).2 := by
  induction ts with
  | nil => intro ol ol2 _; rfl
  | cons t ts ih =>
    intro ol ol2 h
    simp only [slidingRun, checkSlidingWindow, h]
    by_cases hc : ((ol2.requests.filter (fun x => t - window < x)).length : Int) < limit
    · simp only [hc, if_pos]
      exact congrArg (List.cons t) (ih _ _ rfl)
    · simp only [hc, if_neg, ite_false, Bool.false_eq_true]
      exact ih _ _ rfl

theorem optRun_eq_slidingRun (key : String) (limit window : Int) (ts : List Int) :
    ∀ (m : OptimizedLocalLimits) (ol : OptimizedLocalLimit), mget m key = some ol →
      (optRun key limit window m ts).2 = (slidingRun limit window ol ts).2 := by
  induction ts with
  | nil => intro m ol _; rfl
  | cons t ts ih =>
    intro m ol h
    simp only [optRun, slidingRun, checkOptimizedLocalLimit, h]
    rw [ih _ _ (mget_mset_self m key _)]

theorem optAllowedTimes_eq_slidingRun (key : String) (limit window : Int)
    (t : Int) (ts : List Int) :
    optAllowedTimes key limit window (t :: ts) =
      (slidingRun limit window ⟨0, t, window, []⟩ (t :: ts)).2 := by
  show (optRun key limit window [] (t :: ts)).2 = _
  simp only [optRun, slidingRun, checkOptimizedLocalLimit, mget]
  rw [optRun_eq_slidingRun key limit window ts _ _ (mget_mset_self [] key _)]

theorem slidingRun_tight_aux (limit window : Int) (hw : 0 < window) :
    ∀ ts : List Int, List.Sorted (· ≤ ·) ts →
    ∀ (A : List Int) (tprev : Int) (ol : OptimizedLocalLimit),
      ol.requests = A.filter (fun x => decide (tprev - window < x)) →
      (∀ t ∈ ts, tprev ≤ t) →
      (∀ b : Int, ((A.countP (inWin window b) : Int) ≤ limit)) →
      ∀ b : Int,
        (((A ++ (slidingRun limit window ol ts).2).countP (inWin window b) : Int) ≤ limit) := by
  intro ts
  induction ts with
  | nil =>
    intro _ A tprev ol _ _ hA b
    simpa [slidingRun] using hA b
  | cons t ts ih =>
    intro hsort A tprev ol hreq hlow hA b
    have hts : List.Sorted (· ≤ ·) ts := (List.sorted_cons.mp hsort).2
    have hhead : ∀ u ∈ ts, t ≤ u := (List.sorted_cons.mp hsort).1
    have hpt : tprev ≤ t := hlow t (by simp)
    have hvalid : ol.requests.filter (fun x => decide (t - window < x)) =
        A.filter (fun x => decide (t - window < x)) := by
      rw [hreq, List.filter_filter]
      refine List.filter_congr ?_
      intro x _
      by_cases h : t - window < x
      · have h2 : tprev - window < x := by omega
        simp [h, h2]
      · simp [h]
    by_cases hallow : ((A.filter (fun x => decide (t - window < x))).length : Int) < limit
    · have hstep : slidingRun limit window ol (t :: ts) =
          let rest := slidingRun limit window
            ⟨((A.filter (fun x => decide (t - window < x))).length : Int) + 1, t, ol.window,
              A.filter (fun x => decide (t - window < x)) ++ [t]⟩ ts
          (rest.1, t :: rest.2) := by
        simp only [slidingRun, checkSlidingWindow, hvalid, if_pos hallow, if_true]
      rw [hstep]
      have hA2 : ∀ c : Int, (((A ++ [t]).countP (inWin window c) : Int) ≤ limit) := by
        intro c
        rw [List.countP_append]
        by_cases hin : inWin window c t = true
        · have hb1 : c < t ∧ t ≤ c + window := by
            constructor
            · exact of_decide_eq_true (Bool.and_elim_left hin)
            · exact of_decide_eq_true (Bool.and_elim_right hin)
          have hcount : A.countP (inWin window c) ≤
              (A.filter (fun x => decide (t - window < x))).length := by
            rw [← List.countP_eq_length_filter]
            refine List.countP_mono_left ?_
            intro x _ hpx
            have hx1 : c < x := of_decide_eq_true (Bool.and_elim_left hpx)
            exact decide_eq_true (by omega)
          simp only [List.countP_singleton, hin, if_true]
          push_cast
          omega
        · simp only [List.countP_singleton, hin, if_false]
          simpa using hA c
      have hres := ih hts (A ++ [t]) t
        ⟨((A.filter (fun x => decide (t - window < x))).length : Int) + 1, t, ol.window,
          A.filter (fun x => decide (t - window < x)) ++ [t]⟩
        (by
          simp only [List.filter_append]
          have hkeep : [t].filter (fun x => decide (t - window < x)) = [t] := by
            simp [List.filter, hw]
          rw [hkeep])
        hhead hA2 b
      rw [List.append_cons]
      exact hres
    · have hstep : slidingRun limit window ol (t :: ts) =
          let rest := slidingRun limit window
            ⟨ol.count, ol.lastReset, ol.window,
              A.filter (fun x => decide (t - window < x))⟩ ts
          (rest.1, rest.2) := by
        simp only [slidingRun, checkSlidingWindow, hvalid, if_neg hallow,
          Bool.false_eq_true, if_false]
      rw [hstep]
      exact ih hts A t
        ⟨ol.count, ol.lastReset, ol.window, A.filter (fun x => decide (t - window < x))⟩
        rfl hhead hA b

/-- Claim C1 (amended): sliding-window tightness holds for the optimized
sliding-window variant: for every key, every pair (limit, window) with
window positive and limit non-negative, and every nondecreasing sequence
of Allow call times, the number of calls returning allowed=true whose
times fall inside any half-open window-sized sub-interval (a, a+window]
is at most limit.  (The base local limiter is a fixed-window counter and
violates this bound; see the counterexample.) -/
theorem optimizedLimiter_sliding_window_tight (key : String) (limit window : Int)
    (hw : 0 < window) (hl : 0 ≤ limit) (ts : List Int)
    (hs : List.Sorted (· ≤ ·) ts) (a : Int) :
    ((optAllowedTimes key limit window ts).countP (inWin window a) : Int) ≤ limit := by
  cases ts with
  | nil => simpa [optAllowedTimes, optRun] using hl
  | cons t ts =>
    rw [optAllowedTimes_eq_slidingRun]
    have hlow : ∀ u ∈ t :: ts, t ≤ u := by
      intro u hu
      rcases List.mem_cons.mp hu with h | h
      · exact le_of_eq h.symm
      · exact (List.sorted_cons.mp hs).1 u h
    have h := slidingRun_tight_aux limit window hw (t :: ts) hs [] t ⟨0, t, window, []⟩
      (by simp) hlow (fun b => by simpa using hl) a
    simpa using h

/-- Claim C1, counterexample: the base local limiter (`checkLocalLimit`,
a fixed-window counter) admits 3 calls inside the window-sized interval
(1, 4] with limit 2 and window 3: the calls at times 0, 2, 3, 4 are all
allowed, because the counter resets at time 3. -/
theorem localLimiter_violates_sliding_tightness :
    localAllowedTimes "k" 2 3 [0, 2, 3, 4] = [0, 2, 3, 4] ∧
    (localAllowedTimes "k" 2 3 [0, 2, 3, 4]).countP (inWin 3 1) = 3 ∧
    ¬((3 : Int) ≤ 2) := by
  refine ⟨by decide, by decide, by decide⟩

/-- Witness for the C1 theorem at key "k", limit 2, window 3,
call times [0, 2, 3, 4] and sub-interval (1, 4]. -/
theorem optimizedLimiter_sliding_window_tight_witness :
    (0 : Int) < 3 ∧ (0 : Int) ≤ 2 ∧ List.Sorted (· ≤ ·) ([0, 2, 3, 4] : List Int) ∧
    ((optAllowedTimes "k" 2 3 [0, 2, 3, 4]).countP (inWin 3 1) : Int) ≤ 2 :=
  ⟨by decide, by decide, by decide,
    optimizedLimiter_sliding_window_tight "k" 2 3 (by decide) (by decide)
      [0, 2, 3, 4] (by decide) 1⟩

/-- Claim C10: for every limit value, including limit = 0, the base local
limiter allows the first request on a key that is absent from the map or
whose window has elapsed, creating a bucket with count 1; in particular a
fresh key with limit = 0 is admitted. -/
theorem checkLocalLimit_fresh_always_allows (m : LocalLimits) (key : String)
    (limit window now : Int)
    (h : mget m key = none ∨
         ∃ l, mget m key = some l ∧ now - l.lastReset ≥ window) :
    checkLocalLimit m key limit window now = (true, mset m key ⟨1, now, window⟩) := by
  rcases h with h | ⟨l, hl, hwin⟩
  · simp [checkLocalLimit, h]
  · simp [checkLocalLimit, hl, if_pos hwin]

/-- Witness for C10: a fresh key with limit = 0 is admitted. -/
theorem checkLocalLimit_fresh_always_allows_witness :
    (mget ([] : LocalLimits) "k" = none ∨
      ∃ l, mget ([] : LocalLimits) "k" = some l ∧ (5 : Int) - l.lastReset ≥ minuteNs) ∧
    checkLocalLimit [] "k" 0 minuteNs 5 = (true, [("k", ⟨1, 5, minuteNs⟩)]) :=
  ⟨Or.inl rfl, checkLocalLimit_fresh_always_allows [] "k" 0 minuteNs 5 (Or.inl rfl)⟩

/-!
## Scoring engine (`internal/usecase/captcha_usecase.go`)

`validateClickAnswer`, `validateDragDropAnswer`, `validateSwipeAnswer` and
`validateGameAnswer` translate the per-family validators.  Each validator
returns `none` exactly where the Go code would panic with an integer
division by zero (equal-length empty inputs); the Go loop guard
`i < len(actualSequence)` is vacuous on the equal-length branch, so the
loops count position-wise matches, modelled with `List.zip`.
-/

/-- Number of positions at which the attempt matches the oracle
(the `correctCount` loop of `validateClickAnswer`). -/
def clickMatchCount (expected actual : List String) : Nat :=
  (expected.zip actual).countP (fun p => p.1 == p.2)

/-- Translation of `captchaUsecase.validateClickAnswer` on the already-cast
`[]string` values. -/
def validateClickAnswer (expected actual : List String) : Option (Bool × Nat) :=
  if expected.length ≠ actual.length then some (false, 20)
  else if expected.length = 0 then none
  else some (clickMatchCount expected actual == expected.length,
             clickMatchCount expected actual * 100 / expected.length)

/-- Number of oracle pairs whose object is mapped to the expected target by
the attempt (the `correctCount` loop of `validateDragDropAnswer`). -/
def dragCorrectCount (expected actual : List (String × String)) : Nat :=
  expected.countP (fun p => mget actual p.1 == some p.2)

/-- Translation of `captchaUsecase.validateDragDropAnswer` on the
already-cast `map[string]string` values (association lists with at most
one binding per key). -/
def validateDragDropAnswer (expected actual : List (String × String)) :
    Option (Bool × Nat) :=
  if expected.length ≠ actual.length then some (false, 20)
  else if expected.length = 0 then none
  else some (dragCorrectCount expected actual == expected.length,
             dragCorrectCount expected actual * 100 / expected.length)

/-- Translation of `captchaUsecase.validateSwipeGesture`: both gesture maps
must carry a "direction" entry and the directions must agree. -/
def validateSwipeGesture (e a : List (String × String)) : Bool :=
  match mget e "direction", mget a "direction" with
  | some ed, some ad => ed == ad
  | _, _ => false

/-- Number of positions at which the swipe gestures match. -/
def swipeCorrectCount (expected actual : List (List (String × String))) : Nat :=
  (expected.zip actual).countP (fun p => validateSwipeGesture p.1 p.2)

/-- Translation of `captchaUsecase.validateSwipeAnswer`. -/
def validateSwipeAnswer (expected actual : List (List (String × String))) :
    Option (Bool × Nat) :=
  if expected.length ≠ actual.length then some (false, 20)
  else if expected.length = 0 then none
  else some (swipeCorrectCount expected actual == expected.length,
             swipeCorrectCount expected actual * 100 / expected.length)

/-- Translation of `captchaUsecase.validateGameAnswer`.  Go `float64`
arithmetic is modelled with exact rationals; the `int32` conversion of a
non-negative value is `Int.floor` followed by `toNat`. -/
def validateGameAnswer (expected actual : ℚ) : Bool × Nat :=
  let threshold := expected * (4 / 5)
  if actual ≥ threshold then
    let c := (actual / expected * 100).floor
    (true, if c > 100 then 100 else c.toNat)
  else
    (false, (actual / expected * 50).floor.toNat)

theorem clickMatchCount_eq_length_iff :
    ∀ e a : List String, e.length = a.length →
      (clickMatchCount e a = e.length ↔ e = a) := by
  intro e
  induction e with
  | nil =>
    intro a h
    cases a with
    | nil => simp [clickMatchCount]
    | cons y a2 => simp at h
  | cons x e ih =>
    intro a h
    cases a with
    | nil => simp at h
    | cons y a2 =>
      simp only [List.length_cons] at h
      have hlen : e.length = a2.length := by omega
      by_cases hxy : x = y
      · subst hxy
        have hcons : clickMatchCount (x :: e) (x :: a2) = clickMatchCount e a2 + 1 := by
          simp [clickMatchCount, List.zip_cons_cons, List.countP_cons]
        rw [hcons]
        simp only [List.length_cons]
        constructor
        · intro hcount
          have h2 : clickMatchCount e a2 = e.length := by omega
          rw [(ih a2 hlen).mp h2]
        · intro heq
          have h2 : e = a2 := by injection heq
          rw [(ih a2 hlen).mpr h2]
      · have hcons : clickMatchCount (x :: e) (y :: a2) = clickMatchCount e a2 := by
          simp [clickMatchCount, List.zip_cons_cons, List.countP_cons, hxy]
        have hle : clickMatchCount e a2 ≤ e.length := by
          calc clickMatchCount e a2 ≤ (e.zip a2).length := List.countP_le_length _
          _ = min e.length a2.length := List.length_zip e a2
          _ = e.length := by omega
        constructor
        · intro hcount
          rw [hcons] at hcount
          simp only [List.length_cons] at hcount
          omega
        · intro heq
          exact absurd (by injection heq) hxy

/-- Modelled from the spec words, for comparison only: the length of the
longest matching leading run of the attempt against the oracle (the
claim's reading of the confidence numerator as the longest matching
initial segment). -/
def specLeadingMatchLen : List String → List String → Nat
  | e :: es, a :: as => if e = a then specLeadingMatchLen es as + 1 else 0
  | _, _ => 0

/-- Claim C2, counterexample: on oracle ["a","b"] and attempt ["c","b"]
the code returns confidence 50 (one matching position, anywhere), while
the claim's longest-matching-initial-segment reading predicts 0. -/
theorem validateClick_counterexample :
    validateClickAnswer ["a", "b"] ["c", "b"] = some (false, 50) ∧
    100 * specLeadingMatchLen ["a", "b"] ["c", "b"] / 2 = 0 ∧
    (50 : Nat) ≠ 0 := by
  refine ⟨by decide, by decide, by decide⟩

/-- Claim C2 (amended): for a Click challenge with a non-empty oracle,
validation returns solved=true exactly when the attempt equals the oracle
element-wise, and the confidence equals 100·(number of positions at which
the attempt matches the oracle)/length with integer division; an attempt
of different length yields (false, 20). -/
theorem validateClick_positionwise (e a : List String) (hne : e.length ≠ 0) :
    (e.length = a.length →
       validateClickAnswer e a =
         some (decide (e = a), 100 * clickMatchCount e a / e.length)) ∧
    (e.length ≠ a.length → validateClickAnswer e a = some (false, 20)) := by
  constructor
  · intro hlen
    unfold validateClickAnswer
    rw [if_neg (by omega), if_neg hne]
    have h1 : (clickMatchCount e a == e.length) = decide (e = a) := by
      by_cases h : e = a
      · have h2 : clickMatchCount e a = e.length :=
          (clickMatchCount_eq_length_iff e a hlen).mpr h
        rw [h2]
        simp [h]
      · have h2 : clickMatchCount e a ≠ e.length :=
          fun hc => h ((clickMatchCount_eq_length_iff e a hlen).mp hc)
        simp [h, h2]
    rw [h1, Nat.mul_comm]
  · intro hlen
    unfold validateClickAnswer
    rw [if_pos hlen]

/-- Witness for the C2 theorem on oracle ["t1","t2"] with the matching
attempt and with a shorter attempt. -/
theorem validateClick_positionwise_witness :
    (["t1", "t2"] : List String).length ≠ 0 ∧
    (((["t1", "t2"] : List String).length = (["t1", "t2"] : List String).length →
       validateClickAnswer ["t1", "t2"] ["t1", "t2"] =
         some (decide ((["t1", "t2"] : List String) = ["t1", "t2"]),
           100 * clickMatchCount ["t1", "t2"] ["t1", "t2"] /
             (["t1", "t2"] : List String).length)) ∧
     ((["t1", "t2"] : List String).length ≠ (["t1", "t2"] : List String).length →
       validateClickAnswer ["t1", "t2"] ["t1", "t2"] = some (false, 20))) :=
  ⟨by decide, validateClick_positionwise ["t1", "t2"] ["t1", "t2"] (by decide)⟩

/-- Claim C8: DragDrop validation counts oracle pairs reproduced by the
attempt; confidence is 100·(correct pairs)/(oracle size) with integer
division, a size mismatch yields (false, 20), and the claim's concrete
example yields (false, 66). -/
theorem validateDragDrop_pairwise (e a : List (String × String)) (hne : e.length ≠ 0) :
    (e.length = a.length →
       validateDragDropAnswer e a =
         some (dragCorrectCount e a == e.length, 100 * dragCorrectCount e a / e.length)) ∧
    (e.length ≠ a.length → validateDragDropAnswer e a = some (false, 20)) ∧
    validateDragDropAnswer [("a", "1"), ("b", "2"), ("c", "3")]
        [("a", "1"), ("b", "2"), ("c", "9")] = some (false, 66) := by
  refine ⟨?_, ?_, by decide⟩
  · intro hlen
    unfold validateDragDropAnswer
    rw [if_neg (by omega), if_neg hne, Nat.mul_comm]
  · intro hlen
    unfold validateDragDropAnswer
    rw [if_pos hlen]

/-- Witness for the C8 theorem on the claim's oracle and a same-size
attempt. -/
theorem validateDragDrop_pairwise_witness :
    ([("a", "1"), ("b", "2"), ("c", "3")] : List (String × String)).length ≠ 0 ∧
    ((([("a", "1"), ("b", "2"), ("c", "3")] : List (String × String)).length =
        ([("a", "1"), ("b", "2"), ("c", "9")] : List (String × String)).length →
       validateDragDropAnswer [("a", "1"), ("b", "2"), ("c", "3")]
           [("a", "1"), ("b", "2"), ("c", "9")] =
         some (dragCorrectCount [("a", "1"), ("b", "2"), ("c", "3")]
             [("a", "1"), ("b", "2"), ("c", "9")] == 3,
           100 * dragCorrectCount [("a", "1"), ("b", "2"), ("c", "3")]
             [("a", "1"), ("b", "2"), ("c", "9")] / 3)) ∧
     (([("a", "1"), ("b", "2"), ("c", "3")] : List (String × String)).length ≠
        ([("a", "1"), ("b", "2"), ("c", "9")] : List (String × String)).length →
       validateDragDropAnswer [("a", "1"), ("b", "2"), ("c", "3")]
           [("a", "1"), ("b", "2"), ("c", "9")] = some (false, 20)) ∧
     validateDragDropAnswer [("a", "1"), ("b", "2"), ("c", "3")]
         [("a", "1"), ("b", "2"), ("c", "9")] = some (false, 66)) :=
  ⟨by decide, validateDragDrop_pairwise [("a", "1"), ("b", "2"), ("c", "3")]
    [("a", "1"), ("b", "2"), ("c", "9")] (by decide)⟩

/-!
## Challenge lifecycle (`internal/domain/challenge.go`,
`internal/repository` and `captchaUsecase.ValidateChallenge`)

The oracle / attempt value (`interface{}` in Go) is the tagged variant
`GoVal`; the type assertions of the validators become matches on the
tags, and a failed assertion yields (false, 0) as in the Go code.
-/

inductive ChallengeType where
  | click
  | dragDrop
  | swipe
  | game
  deriving DecidableEq, Repr

/-- Tagged model of the Go `interface{}` values that flow through answers:
`[]string`, `map[string]string`, `[]map[string]interface{}` carrying
direction strings, `float64` (as an exact rational) and anything else. -/
inductive GoVal where
  | strList (xs : List String)
  | strMap (m : List (String × String))
  | dirList (xs : List (List (String × String)))
  | num (q : ℚ)
  | other
  deriving DecidableEq, Repr

structure Challenge where
  id : String
  ctype : ChallengeType
  complexity : Int
  html : String
  answer : GoVal
  createdAt : Int
  expiresAt : Int
  solved : Bool
  metadata : List (String × String)
  deriving DecidableEq, Repr

structure ChallengeResult where
  challengeId : String
  solved : Bool
  confidencePercent : Nat
  timeToSolve : Int
  attempts : Nat
  error : String
  deriving DecidableEq, Repr

abbrev Store := List (String × Challenge)

/-- Translation of `captchaUsecase.validateAnswer`: dispatch on the
challenge type, then cast oracle and attempt; a failed cast yields
(false, 0). -/
def validateAnswer (c : Challenge) (ans : GoVal) : Option (Bool × Nat) :=
  match c.ctype with
  | .click =>
      match c.answer, ans with
      | .strList e, .strList a => validateClickAnswer e a
      | _, _ => some (false, 0)
  | .dragDrop =>
      match c.answer, ans with
      | .strMap e, .strMap a => validateDragDropAnswer e a
      | _, _ => some (false, 0)
  | .swipe =>
      match c.answer, ans with
      | .dirList e, .dirList a => validateSwipeAnswer e a
      | _, _ => some (false, 0)
  | .game =>
      match c.answer, ans with
      | .num e, .num a => some (validateGameAnswer e a)
      | _, _ => some (false, 0)

/-- Translation of `captchaUsecase.ValidateChallenge`.  The repository
`Get` error propagates as `none`; `time.Now().After(ExpiresAt)` is the
strict comparison `now > expiresAt`; `TimeToSolve` is
`time.Since(CreatedAt).Milliseconds()`, nanoseconds divided by 10^6. -/
def ValidateChallenge (st : Store) (now : Int) (id : String) (ans : GoVal) :
    Option (ChallengeResult × Store) :=
  match mget st id with
  | none => none
  | some c =>
      if now > c.expiresAt then
        some ({ challengeId := id, solved := false, confidencePercent := 0,
                timeToSolve := 0, attempts := 0, error := "challenge expired" }, st)
      else if c.solved then
        some ({ challengeId := id, solved := true, confidencePercent := 100,
                timeToSolve := 0, attempts := 0, error := "" }, st)
      else
        match validateAnswer c ans with
        | none => none
        | some (ok, conf) =>
            some ({ challengeId := id, solved := ok, confidencePercent := conf,
                    timeToSolve := (now - c.createdAt) / 1000000, attempts := 1,
                    error := "" },
                  if ok then mset st id { c with solved := true } else st)

/-- A stored click challenge that expires at time 100, used to probe the
expiry boundary. -/
def c5Challenge : Challenge :=
  { id := "c1", ctype := .click, complexity := 10, html := "",
    answer := .strList ["a"], createdAt := 0, expiresAt := 100,
    solved := false, metadata := [] }

def c5Store : Store := [("c1", c5Challenge)]

/-- Claim C5, counterexample: at `now = expiresAt` (so now ≥ expiresAt as
the claim requires) the code does not report expiry: `time.Now().After`
is strict, so validation proceeds and a correct answer yields
(true, 100) with an empty error, not (false, 0, "expired"). -/
theorem validateChallenge_boundary_counterexample :
    (100 : Int) ≥ c5Challenge.expiresAt ∧
    c5Challenge.solved = false ∧
    ValidateChallenge c5Store 100 "c1" (.strList ["a"]) =
      some ({ challengeId := "c1", solved := true, confidencePercent := 100,
              timeToSolve := 0, attempts := 1, error := "" },
            [("c1", { c5Challenge with solved := true })]) := by
  refine ⟨by decide, by decide, by decide⟩

/-- Claim C5 (amended): for every stored challenge c and every answer, if
now is strictly after c.expiresAt at validation time then
ValidateChallenge returns solved=false, confidence 0 and the error
"challenge expired", and leaves the store unchanged, regardless of the
answer's content. -/
theorem validateChallenge_expired (st : Store) (c : Challenge) (id : String)
    (ans : GoVal) (now : Int) (hc : mget st id = some c)
    (h : now > c.expiresAt) :
    ValidateChallenge st now id ans =
      some ({ challengeId := id, solved := false, confidencePercent := 0,
              timeToSolve := 0, attempts := 0, error := "challenge expired" }, st) := by
  simp only [ValidateChallenge, hc]
  rw [if_pos h]

/-- Witness for the C5 theorem: the stored challenge queried after its
expiry returns the expired result for an arbitrary ill-typed answer. -/
theorem validateChallenge_expired_witness :
    mget c5Store "c1" = some c5Challenge ∧ (200 : Int) > c5Challenge.expiresAt ∧
    ValidateChallenge c5Store 200 "c1" GoVal.other =
      some ({ challengeId := "c1", solved := false, confidencePercent := 0,
              timeToSolve := 0, attempts := 0, error := "challenge expired" },
            c5Store) :=
  ⟨by decide, by decide,
    validateChallenge_expired c5Store c5Challenge "c1" GoVal.other 200
      (by decide) (by decide)⟩

/-- Claim C6: for every stored non-expired challenge with solved=true,
ValidateChallenge returns (true, 100) for any answer and performs no
mutation: the returned store is the input store. -/
theorem validateChallenge_solved_idempotent (st : Store) (c : Challenge)
    (id : String) (ans : GoVal) (now : Int) (hc : mget st id = some c)
    (hexp : now ≤ c.expiresAt) (hs : c.solved = true) :
    ValidateChallenge st now id ans =
      some ({ challengeId := id, solved := true, confidencePercent := 100,
              timeToSolve := 0, attempts := 0, error := "" }, st) := by
  simp only [ValidateChallenge, hc]
  rw [if_neg (by omega), if_pos hs]

/-- A solved, unexpired challenge used to witness C6. -/
def c6Challenge : Challenge := { c5Challenge with id := "c2", solved := true }

def c6Store : Store := [("c2", c6Challenge)]

/-- Witness for the C6 theorem: re-validating a solved challenge before
expiry returns (true, 100) and the unchanged store. -/
theorem validateChallenge_solved_idempotent_witness :
    mget c6Store "c2" = some c6Challenge ∧ (50 : Int) ≤ c6Challenge.expiresAt ∧
    c6Challenge.solved = true ∧
    ValidateChallenge c6Store 50 "c2" (.strList ["zzz"]) =
      some ({ challengeId := "c2", solved := true, confidencePercent := 100,
              timeToSolve := 0, attempts := 0, error := "" }, c6Store) :=
  ⟨by decide, by decide, by decide,
    validateChallenge_solved_idempotent c6Store c6Challenge "c2"
      (.strList ["zzz"]) 50 (by decide) (by decide) (by decide)⟩

/-!
## IP blocker (`internal/security/rate_limiter.go`, `IPBlocker`)

`RecordFailedAttempt` and `IsBlocked` translate the local (non-Redis)
paths.  The blocking threshold is the literal 5 of the source
(`attemptInfo.Count >= 5`, commented "Configurable threshold") and the
block duration is the literal `time.Hour` of `blockIP`.
-/

structure AttemptInfo where
  ip : String
  count : Nat
  firstSeen : Int
  lastSeen : Int
  deriving DecidableEq, Repr

structure BlockInfo where
  ip : String
  reason : String
  blockedAt : Int
  expiresAt : Int
  attempts : Nat
  deriving DecidableEq, Repr

structure IPBlockerSt where
  localBlocks : List (String × BlockInfo)
  failedAttempts : List (String × AttemptInfo)
  deriving DecidableEq, Repr

/-- The failure threshold hard-coded in `RecordFailedAttempt`. -/
def maxFailedAttempts : Nat := 5

/-- The block duration hard-coded in `IPBlocker.blockIP` (`time.Hour`). -/
def blockDuration : Int := hourNs

/-- Translation of the private `IPBlocker.blockIP`. -/
def blockIP (st : IPBlockerSt) (ip reason : String) (attempts : Nat) (now : Int) :
    IPBlockerSt :=
  { st with localBlocks := mset st.localBlocks ip ⟨ip, reason, now, now + blockDuration, attempts⟩ }

/-- Translation of `IPBlocker.RecordFailedAttempt` (local path): increment
or create the per-IP counter, then block once the counter reaches the
threshold. -/
def RecordFailedAttempt (st : IPBlockerSt) (ip reason : String) (now : Int) :
    IPBlockerSt :=
  let info : AttemptInfo :=
    match mget st.failedAttempts ip with
    | none => ⟨ip, 1, now, now⟩
    | some a => ⟨a.ip, a.count + 1, a.firstSeen, now⟩
  let st2 : IPBlockerSt := { st with failedAttempts := mset st.failedAttempts ip info }
  if info.count ≥ maxFailedAttempts then blockIP st2 ip reason info.count now else st2

/-- Translation of `IPBlocker.IsBlocked` (local path): a block denies only
while unexpired; an expired record is dropped lazily. -/
def IsBlocked (st : IPBlockerSt) (ip : String) (now : Int) :
    Bool × Option BlockInfo × IPBlockerSt :=
  match mget st.localBlocks ip with
  | none => (false, none, st)
  | some b =>
      if now > b.expiresAt then
        (false, none, { st with localBlocks := mdel st.localBlocks ip })
      else (true, some b, st)

/-- Repeated `RecordFailedAttempt` calls for one IP at the given times. -/
def applyFailures (ip reason : String) : IPBlockerSt → List Int → IPBlockerSt
  | st, [] => st
  | st, t :: ts => applyFailures ip reason (RecordFailedAttempt st ip reason t) ts

/-- Current failure count for an IP (0 when no record exists). -/
def countOf (st : IPBlockerSt) (ip : String) : Nat :=
  ((mget st.failedAttempts ip).map AttemptInfo.count).getD 0

theorem applyFailures_append (ip r : String) (l1 l2 : List Int) :
    ∀ st, applyFailures ip r st (l1 ++ l2) = applyFailures ip r (applyFailures ip r st l1) l2 := by
  induction l1 with
  | nil => intro st; rfl
  | cons t ts ih =>
    intro st
    show applyFailures ip r (RecordFailedAttempt st ip r t) (ts ++ l2) = _
    exact ih (RecordFailedAttempt st ip r t)

theorem recordFailed_count (st : IPBlockerSt) (ip r : String) (now : Int) :
    countOf (RecordFailedAttempt st ip r now) ip = countOf st ip + 1 := by
  unfold RecordFailedAttempt
  cases hm : mget st.failedAttempts ip with
  | none =>
    simp only [hm]
    rw [apply_ite (fun s => countOf s ip)]
    simp [countOf, blockIP, mget_mset_self, hm]
  | some a =>
    simp only [hm]
    rw [apply_ite (fun s => countOf s ip)]
    simp [countOf, blockIP, mget_mset_self, hm]

theorem recordFailed_no_block (st : IPBlockerSt) (ip r : String) (now : Int)
    (h : countOf st ip + 1 < maxFailedAttempts) :
    (RecordFailedAttempt st ip r now).localBlocks = st.localBlocks := by
  unfold RecordFailedAttempt
  cases hm : mget st.failedAttempts ip with
  | none =>
    have hca : countOf st ip = 0 := by simp [countOf, hm]
    rw [hca] at h
    simp only [hm]
    rw [if_neg (by omega : ¬ (1 ≥ maxFailedAttempts))]
  | some a =>
    have hca : countOf st ip = a.count := by simp [countOf, hm]
    rw [hca] at h
    simp only [hm]
    rw [if_neg (by omega : ¬ (a.count + 1 ≥ maxFailedAttempts))]

theorem recordFailed_blocks (st : IPBlockerSt) (ip r : String) (now : Int)
    (h : countOf st ip + 1 ≥ maxFailedAttempts) :
    mget (RecordFailedAttempt st ip r now).localBlocks ip =
      some ⟨ip, r, now, now + blockDuration, countOf st ip + 1⟩ := by
  unfold RecordFailedAttempt
  cases hm : mget st.failedAttempts ip with
  | none =>
    have hca : countOf st ip = 0 := by simp [countOf, hm]
    rw [hca] at h ⊢
    simp only [hm]
    rw [if_pos (by omega : 1 ≥ maxFailedAttempts)]
    simp [blockIP, mget_mset_self]
  | some a =>
    have hca : countOf st ip = a.count := by simp [countOf, hm]
    rw [hca] at h ⊢
    simp only [hm]
    rw [if_pos (by omega : a.count + 1 ≥ maxFailedAttempts)]
    simp [blockIP, mget_mset_self]

theorem applyFailures_below (ip r : String) :
    ∀ (ts : List Int) (st : IPBlockerSt),
      countOf st ip + ts.length < maxFailedAttempts →
      mget st.localBlocks ip = none →
      countOf (applyFailures ip r st ts) ip = countOf st ip + ts.length ∧
      mget (applyFailures ip r st ts).localBlocks ip = none := by
  intro ts
  induction ts with
  | nil =>
    intro st _ hb
    exact ⟨by simp [applyFailures], by simpa [applyFailures] using hb⟩
  | cons t ts ih =>
    intro st hcount hblocks
    simp only [List.length_cons] at hcount
    have h1 : countOf st ip + 1 < maxFailedAttempts := by omega
    have hstep := recordFailed_count st ip r t
    have hkeep := recordFailed_no_block st ip r t h1
    have hres := ih (RecordFailedAttempt st ip r t)
      (by rw [hstep]; omega) (by rw [hkeep]; exact hblocks)
    constructor
    · show countOf (applyFailures ip r (RecordFailedAttempt st ip r t) ts) ip = _
      rw [hres.1, hstep]
      simp only [List.length_cons]
      omega
    · exact hres.2

/-- Claim C7: starting with no prior failures and no block for an IP,
any strictly fewer than maxFailedAttempts recorded failures leave
IsBlocked false, and after exactly maxFailedAttempts failures the block
exists with expiresAt = (time of the last failure) + blockDuration, so
the next IsBlocked within the block duration returns true.  Here
maxFailedAttempts = 5 and blockDuration = 1h are the constants of the
source. -/
theorem ipBlocker_threshold (st0 : IPBlockerSt) (ip r : String)
    (hfa : mget st0.failedAttempts ip = none)
    (hbl : mget st0.localBlocks ip = none)
    (ts : List Int) (q : Int) :
    (ts.length < maxFailedAttempts →
       (IsBlocked (applyFailures ip r st0 ts) ip q).1 = false) ∧
    (ts.length = maxFailedAttempts → ∀ tLast, ts.getLast? = some tLast →
       mget (applyFailures ip r st0 ts).localBlocks ip =
         some ⟨ip, r, tLast, tLast + blockDuration, maxFailedAttempts⟩ ∧
       (q ≤ tLast + blockDuration →
         (IsBlocked (applyFailures ip r st0 ts) ip q).1 = true)) := by
  have hc0 : countOf st0 ip = 0 := by simp [countOf, hfa]
  constructor
  · intro hlen
    have hres := applyFailures_below ip r ts st0 (by omega) hbl
    unfold IsBlocked
    rw [hres.2]
  · intro hlen tLast hlast
    rcases List.eq_nil_or_concat ts with hnil | ⟨l, e, rfl⟩
    · subst hnil; simp [maxFailedAttempts] at hlen
    · rw [List.concat_eq_append] at hlen hlast ⊢
      have he : e = tLast := by
        rw [List.getLast?_concat] at hlast
        injection hlast
      subst he
      have hllen : l.length = 4 := by
        simp only [List.length_append, List.length_cons, List.length_nil,
          maxFailedAttempts] at hlen
        omega
      have hres := applyFailures_below ip r l st0
        (by rw [hc0, hllen]; decide) hbl
      rw [applyFailures_append]
      have hcnt : countOf (applyFailures ip r st0 l) ip + 1 = maxFailedAttempts := by
        rw [hres.1, hc0, hllen]
        decide
      have hblock := recordFailed_blocks (applyFailures ip r st0 l) ip r e
        (by omega)
      rw [hcnt] at hblock
      have hget : mget (applyFailures ip r (applyFailures ip r st0 l) [e]).localBlocks ip =
          some ⟨ip, r, e, e + blockDuration, maxFailedAttempts⟩ := by
        simpa [applyFailures] using hblock
      refine ⟨hget, ?_⟩
      intro hq
      unfold IsBlocked
      rw [hget]
      simp only [if_neg (by omega : ¬ q > e + blockDuration)]

/-- Witness for the C7 theorem: with the blocker empty, four failures at
times 1..4 leave the IP unblocked; the fifth at time 5 creates a block
expiring at 5 + 1h, so `IsBlocked` at time 6 is true. -/
theorem ipBlocker_threshold_witness :
    mget (IPBlockerSt.mk [] []).failedAttempts "10.0.0.1" = none ∧
    mget (IPBlockerSt.mk [] []).localBlocks "10.0.0.1" = none ∧
    ([1, 2, 3, 4] : List Int).length < maxFailedAttempts ∧
    (IsBlocked (applyFailures "10.0.0.1" "x" (IPBlockerSt.mk [] []) [1, 2, 3, 4])
      "10.0.0.1" 6).1 = false ∧
    ([1, 2, 3, 4, 5] : List Int).length = maxFailedAttempts ∧
    mget (applyFailures "10.0.0.1" "x" (IPBlockerSt.mk [] []) [1, 2, 3, 4, 5]).localBlocks
      "10.0.0.1" = some ⟨"10.0.0.1", "x", 5, 5 + blockDuration, maxFailedAttempts⟩ ∧
    (IsBlocked (applyFailures "10.0.0.1" "x" (IPBlockerSt.mk [] []) [1, 2, 3, 4, 5])
      "10.0.0.1" 6).1 = true :=
  ⟨rfl, rfl, by decide,
    (ipBlocker_threshold (IPBlockerSt.mk [] []) "10.0.0.1" "x" rfl rfl
      [1, 2, 3, 4] 6).1 (by decide),
    by decide,
    ((ipBlocker_threshold (IPBlockerSt.mk [] []) "10.0.0.1" "x" rfl rfl
      [1, 2, 3, 4, 5] 6).2 (by decide) 5 (by decide)).1,
    ((ipBlocker_threshold (IPBlockerSt.mk [] []) "10.0.0.1" "x" rfl rfl
      [1, 2, 3, 4, 5] 6).2 (by decide) 5 (by decide)).2 (by decide)⟩

/-!
## Admission pipeline (`internal/security/security_service.go`)

`CheckRequest` composes blocker, base rate limiter and bot scorer.  The
bot scorer output (`AnalyzeRequest`) is passed in as the pair
(score, reasons), since the claims quantify over the computed score; Go
`float64` scores are exact rationals here.  The `fmt.Sprintf` reason
strings are modelled as tagged values carrying the formatted data.
-/

structure SecurityStats where
  totalRequests : Nat
  blockedRequests : Nat
  rateLimitedRequests : Nat
  botDetections : Nat
  deriving DecidableEq, Repr

structure SecuritySt where
  limiter : LocalLimits
  blocker : IPBlockerSt
  stats : SecurityStats
  deriving DecidableEq, Repr

inductive Reason where
  | ipBlockedMsg (reason : String)
  | rateLimitExceeded
  | botDetected (score : ℚ)
  | suspiciousBehavior (score : ℚ)
  | detectorReason (s : String)
  deriving DecidableEq, Repr

structure SecurityResult where
  ip : String
  allowed : Bool
  reasons : List Reason
  timestamp : Int
  deriving DecidableEq, Repr

/-- Translation of `SecurityService.CheckRequest`: blocker check, rate
limit against the configured requests-per-minute over a one-minute
window, bot-score thresholds 0.7 (deny, record failure "Bot behavior
detected") and 0.4 (advisory), then the error-path failure recording
with a blocker re-check. -/
def CheckRequest (st : SecuritySt) (ip : String) (rpm : Int) (now : Int)
    (score : ℚ) (botReasons : List String) (isError : Bool) :
    SecurityResult × SecuritySt :=
  let st1 : SecuritySt :=
    { st with stats := { st.stats with totalRequests := st.stats.totalRequests + 1 } }
  let b1 := IsBlocked st1.blocker ip now
  if b1.1 then
    ({ ip := ip
       allowed := false
       reasons := [.ipBlockedMsg ((b1.2.1.map BlockInfo.reason).getD "")]
       timestamp := now },
     { st1 with
       blocker := b1.2.2
       stats := { st1.stats with blockedRequests := st1.stats.blockedRequests + 1 } })
  else
    let st2 : SecuritySt := { st1 with blocker := b1.2.2 }
    let lim := checkLocalLimit st2.limiter ip rpm minuteNs now
    let st3 : SecuritySt := { st2 with limiter := lim.2 }
    if lim.1 = false then
      ({ ip := ip, allowed := false, reasons := [.rateLimitExceeded], timestamp := now },
       { st3 with stats :=
           { st3.stats with rateLimitedRequests := st3.stats.rateLimitedRequests + 1 } })
    else if score > 7 / 10 then
      ({ ip := ip
         allowed := false
         reasons := .botDetected score :: botReasons.map .detectorReason
         timestamp := now },
       { st3 with
         blocker := RecordFailedAttempt st3.blocker ip "Bot behavior detected" now
         stats := { st3.stats with botDetections := st3.stats.botDetections + 1 } })
    else
      let baseReasons : List Reason :=
        if score > 2 / 5 then .suspiciousBehavior score :: botReasons.map .detectorReason
        else []
      if isError then
        let stE : SecuritySt :=
          { st3 with blocker := RecordFailedAttempt st3.blocker ip "Request error" now }
        let b2 := IsBlocked stE.blocker ip now
        if b2.1 then
          ({ ip := ip
             allowed := false
             reasons := baseReasons ++ [.ipBlockedMsg ((b2.2.1.map BlockInfo.reason).getD "")]
             timestamp := now },
           { stE with
             blocker := b2.2.2
             stats := { stE.stats with blockedRequests := stE.stats.blockedRequests + 1 } })
        else
          ({ ip := ip, allowed := true, reasons := baseReasons, timestamp := now },
           { stE with blocker := b2.2.2 })
      else
        ({ ip := ip, allowed := true, reasons := baseReasons, timestamp := now }, st3)

/-- A blocker state in which IP 9.9.9.9 already has 4 recorded failures
and no block. -/
def c9Blocker : IPBlockerSt :=
  ⟨[], [("9.9.9.9", ⟨"9.9.9.9", 4, 0, 0⟩)]⟩

def c9St : SecuritySt := ⟨[], c9Blocker, ⟨0, 0, 0, 0⟩⟩

/-- Claim C9, counterexample: a request that passes the blocker and the
rate limit with a bot score of 0.5 (so 0.4 < s ≤ 0.7) is nevertheless
denied when it is an error request from an IP with 4 prior failures:
step 4 records the failure, which crosses the block threshold, and the
blocker re-check denies. -/
theorem checkRequest_suspicious_can_be_denied :
    (IsBlocked c9St.blocker "9.9.9.9" 1).1 = false ∧
    (checkLocalLimit c9St.limiter "9.9.9.9" 100 minuteNs 1).1 = true ∧
    ((2 : ℚ) / 5 < 1 / 2 ∧ (1 : ℚ) / 2 ≤ 7 / 10) ∧
    (CheckRequest c9St "9.9.9.9" 100 1 (1 / 2) [] true).1.allowed = false := by
  have hns : ¬ ((1 : ℚ) / 2 > 7 / 10) := by norm_num
  have hsus : (1 : ℚ) / 2 > 2 / 5 := by norm_num
  refine ⟨by decide, by decide, ⟨by norm_num, by norm_num⟩, ?_⟩
  simp only [CheckRequest, if_neg hns, if_pos hsus]
  decide

/-- Claim C9 (amended): for a request that passes the blocker and
rate-limit steps, if the bot score s satisfies s > 0.7 the pipeline
denies the request, attaches the bot-detected reason, and records a
failure for the IP with the reason "Bot behavior detected"; if
0.4 < s ≤ 0.7 the advisory suspicious-behavior reason is attached and
the request is allowed provided it is not an error request (an error
request may still be denied by the step-4 blocker re-check). -/
theorem checkRequest_bot_thresholds (st : SecuritySt) (ip : String) (rpm now : Int)
    (score : ℚ) (botReasons : List String) (isError : Bool)
    (hb : (IsBlocked st.blocker ip now).1 = false)
    (hl : (checkLocalLimit st.limiter ip rpm minuteNs now).1 = true) :
    (score > 7 / 10 →
       (CheckRequest st ip rpm now score botReasons isError).1.allowed = false ∧
       (CheckRequest st ip rpm now score botReasons isError).1.reasons =
         .botDetected score :: botReasons.map .detectorReason ∧
       (CheckRequest st ip rpm now score botReasons isError).2.blocker =
         RecordFailedAttempt (IsBlocked st.blocker ip now).2.2 ip
           "Bot behavior detected" now) ∧
    (2 / 5 < score → score ≤ 7 / 10 → isError = false →
       (CheckRequest st ip rpm now score botReasons isError).1.allowed = true ∧
       (CheckRequest st ip rpm now score botReasons isError).1.reasons =
         .suspiciousBehavior score :: botReasons.map .detectorReason) := by
  refine ⟨fun hscore => ?_, fun hs1 hs2 hie => ?_⟩
  · simp only [CheckRequest, hb, hl, Bool.false_eq_true, if_false, ite_false,
      Bool.true_eq_false, if_pos hscore]
    exact ⟨trivial, trivial, trivial⟩
  · have hns : ¬ (score > 7 / 10) := not_lt.mpr hs2
    simp only [CheckRequest, hb, hl, Bool.false_eq_true, if_false, ite_false,
      Bool.true_eq_false, if_neg hns, hie, if_pos hs1]
    exact ⟨trivial, trivial⟩

/-- Witness for the C9 theorem on an empty security state: score 0.9
denies and records the bot failure; score 0.5 with isError=false allows
with the advisory reason. -/
theorem checkRequest_bot_thresholds_witness :
    (IsBlocked (SecuritySt.mk [] ⟨[], []⟩ ⟨0, 0, 0, 0⟩).blocker "1.1.1.1" 0).1 = false ∧
    (checkLocalLimit (SecuritySt.mk [] ⟨[], []⟩ ⟨0, 0, 0, 0⟩).limiter "1.1.1.1" 100
      minuteNs 0).1 = true ∧
    ((9 : ℚ) / 10 > 7 / 10) ∧
    (CheckRequest (SecuritySt.mk [] ⟨[], []⟩ ⟨0, 0, 0, 0⟩) "1.1.1.1" 100 0 (9 / 10)
      ["ua"] false).1.allowed = false ∧
    (CheckRequest (SecuritySt.mk [] ⟨[], []⟩ ⟨0, 0, 0, 0⟩) "1.1.1.1" 100 0 (9 / 10)
      ["ua"] false).2.blocker =
      RecordFailedAttempt
        (IsBlocked (SecuritySt.mk [] ⟨[], []⟩ ⟨0, 0, 0, 0⟩).blocker "1.1.1.1" 0).2.2
        "1.1.1.1" "Bot behavior detected" 0 ∧
    ((2 : ℚ) / 5 < 1 / 2 ∧ (1 : ℚ) / 2 ≤ 7 / 10) ∧
    (CheckRequest (SecuritySt.mk [] ⟨[], []⟩ ⟨0, 0, 0, 0⟩) "1.1.1.1" 100 0 (1 / 2)
      [] false).1.allowed = true ∧
    (CheckRequest (SecuritySt.mk [] ⟨[], []⟩ ⟨0, 0, 0, 0⟩) "1.1.1.1" 100 0 (1 / 2)
      [] false).1.reasons = [.suspiciousBehavior (1 / 2)] :=
  ⟨by decide, by decide, by norm_num,
    ((checkRequest_bot_thresholds (SecuritySt.mk [] ⟨[], []⟩ ⟨0, 0, 0, 0⟩) "1.1.1.1"
      100 0 (9 / 10) ["ua"] false (by decide) (by decide)).1 (by norm_num)).1,
    ((checkRequest_bot_thresholds (SecuritySt.mk [] ⟨[], []⟩ ⟨0, 0, 0, 0⟩) "1.1.1.1"
      100 0 (9 / 10) ["ua"] false (by decide) (by decide)).1 (by norm_num)).2.2,
    ⟨by norm_num, by norm_num⟩,
    ((checkRequest_bot_thresholds (SecuritySt.mk [] ⟨[], []⟩ ⟨0, 0, 0, 0⟩) "1.1.1.1"
      100 0 (1 / 2) [] false (by decide) (by decide)).2 (by norm_num) (by norm_num) rfl).1,
    ((checkRequest_bot_thresholds (SecuritySt.mk [] ⟨[], []⟩ ⟨0, 0, 0, 0⟩) "1.1.1.1"
      100 0 (1 / 2) [] false (by decide) (by decide)).2 (by norm_num) (by norm_num) rfl).2⟩

/-!
## Adaptive limiter behavior records (`src/unnamed/part_000`,
`AdaptiveLimiter.GetUserBehavior`)

Go maps and slices are reference values: `behaviorCopy := *behavior`
copies the struct fields, including the references, so the copy shares
its `UserAgents`/`RequestPaths` maps and its `RequestTimes`/
`CaptchaSolveTime` backing arrays with the internal record.  The heap
holds the referents; a `Ref` is an address into it.
-/

abbrev Ref := Nat

structure UserBehaviorV where
  ip : String
  firstSeen : Int
  lastSeen : Int
  totalRequests : Int
  successfulRequests : Int
  failedRequests : Int
  averageResponseTime : Int
  trustScore : ℚ
  isRegularUser : Bool
  isSuspicious : Bool
  isBot : Bool
  userAgents : Ref
  requestPaths : Ref
  captchaSolveTime : Ref
  requestTimes : Ref
  deriving DecidableEq, Repr

structure BehaviorHeap where
  strIntMaps : Ref → List (String × Int)
  timeSlices : Ref → List Int

structure AdaptiveLimiterSt where
  behaviors : List (String × UserBehaviorV)
  heap : BehaviorHeap

/-- Translation of `AdaptiveLimiter.GetUserBehavior`: the shallow copy
`behaviorCopy := *behavior` returns the struct value, whose map and slice
fields are the same references as the internal record's. -/
def GetUserBehavior (st : AdaptiveLimiterSt) (ip : String) : Option UserBehaviorV :=
  mget st.behaviors ip

/-- A caller-side mutation through the returned copy:
`copy.UserAgents[k] = v` writes through the shared map reference. -/
def setUserAgentThrough (h : BehaviorHeap) (b : UserBehaviorV) (k : String) (v : Int) :
    BehaviorHeap :=
  { h with strIntMaps :=
      fun r => if r = b.userAgents then mset (h.strIntMaps r) k v else h.strIntMaps r }

/-- The user-agent data a reader observes for an ip: the record returned
by `GetUserBehavior` with its map dereferenced. -/
def observedUserAgents (st : AdaptiveLimiterSt) (ip : String) :
    Option (List (String × Int)) :=
  (GetUserBehavior st ip).map (fun b => st.heap.strIntMaps b.userAgents)

def c3Behavior : UserBehaviorV :=
  { ip := "1.2.3.4", firstSeen := 0, lastSeen := 0, totalRequests := 1,
    successfulRequests := 1, failedRequests := 0, averageResponseTime := 0,
    trustScore := 1 / 2, isRegularUser := false, isSuspicious := false,
    isBot := false, userAgents := 0, requestPaths := 1,
    captchaSolveTime := 2, requestTimes := 3 }

def c3Heap : BehaviorHeap :=
  { strIntMaps := fun r => if r = 0 then [("ua", 1)] else []
    timeSlices := fun _ => [] }

def c3St : AdaptiveLimiterSt :=
  { behaviors := [("1.2.3.4", c3Behavior)], heap := c3Heap }

/-- Claim C3, evaluated at the failing input: mutating the user-agent map
of the SourceBehavior returned by `GetUserBehavior` changes what a
subsequent `GetUserBehavior` for the same IP observes, because the
shallow copy shares the map reference with the internal record.  The
claim (and the code's own comment, which says the copy avoids races)
requires the re-read to be unchanged. -/
theorem getUserBehavior_shallow_copy_shares_maps :
    GetUserBehavior c3St "1.2.3.4" = some c3Behavior ∧
    observedUserAgents c3St "1.2.3.4" = some [("ua", 1)] ∧
    observedUserAgents
      { c3St with heap := setUserAgentThrough c3St.heap c3Behavior "ua" 999 }
      "1.2.3.4" = some [("ua", 999)] ∧
    (some [("ua", 999)] : Option (List (String × Int))) ≠ some [("ua", 1)] :=
  ⟨rfl, rfl, rfl, by decide⟩

/-!
## Click generator (`internal/captcha/click.go`)

The module-level `math/rand` stream is modelled as a function
`rng : Nat → Int × Int` giving the successive pairs of raw
`rand.Intn(width−2r)` / `rand.Intn(height−2r)` draws, consumed by an
advancing index.  `math.Sqrt(dx·dx+dy·dy) < float64(2r)` is compared on
squares, which is exact for canvas-range integers.  Go passes `x` and
`y` to `avoidOverlap` by value: the repositioned coordinates computed
inside it are never returned, so only the RNG advance is visible to the
caller, exactly as in the source.
-/

structure ClickArea where
  id : String
  x : Int
  y : Int
  width : Int
  height : Int
  required : Bool
  text : String
  deriving DecidableEq, Repr

structure ClickGenerator where
  canvasWidth : Int
  canvasHeight : Int
  minClicks : Int
  maxClicks : Int
  clickRadius : Int
  deriving DecidableEq, Repr

/-- `calculateDistance(x1,y1,x2,y2) < float64(2·clickRadius)`, compared on
squares. -/
def distLtTwoRadius (g : ClickGenerator) (x1 y1 x2 y2 : Int) : Bool :=
  decide ((x1 - x2) * (x1 - x2) + (y1 - y2) * (y1 - y2) <
    (2 * g.clickRadius) * (2 * g.clickRadius))

/-- A position drawn from a raw pair:
`x := clickRadius + rand.Intn(w−2r)`, `y := clickRadius + rand.Intn(h−2r)`. -/
def drawPos (g : ClickGenerator) (d : Int × Int) : Int × Int :=
  (g.clickRadius + d.1, g.clickRadius + d.2)

/-- The overlap test of the `avoidOverlap` loop body. -/
def overlapsAny (g : ClickGenerator) (x y : Int) (areas : List ClickArea) : Bool :=
  areas.any (fun e => distLtTwoRadius g x y e.x e.y)

/-- Translation of `ClickGenerator.avoidOverlap`: up to 50 repositioning
attempts; returns the local coordinates and the advanced RNG index.  The
Go caller receives none of this except the RNG advance, because `x` and
`y` are passed by value. -/
def avoidOverlap (g : ClickGenerator) (rng : Nat → Int × Int) :
    Nat → Int → Int → List ClickArea → Nat → Int × Int × Nat
  | fuel, x, y, existing, k =>
      if overlapsAny g x y existing = false then (x, y, k)
      else
        match fuel with
        | 0 => (x, y, k)
        | f + 1 =>
            let p := drawPos g (rng k)
            avoidOverlap g rng f p.1 p.2 existing (k + 1)

/-- Translation of the loop of `ClickGenerator.generateClickAreas`: draw a
position, run `avoidOverlap` (whose repositioned coordinates are
discarded, as in the Go source), then emit the area at the original
position. -/
def genAreasLoop (g : ClickGenerator) (rng : Nat → Int × Int) :
    Nat → Nat → List ClickArea → List String → Nat →
      List ClickArea × List String × Nat
  | 0, _, areas, seq, k => (areas, seq, k)
  | n + 1, i, areas, seq, k =>
      let p := drawPos g (rng k)
      let ao := avoidOverlap g rng 50 p.1 p.2 areas (k + 1)
      let area : ClickArea :=
        { id := "area_" ++ toString i
          x := p.1
          y := p.2
          width := 2 * g.clickRadius
          height := 2 * g.clickRadius
          required := true
          text := toString (i + 1) }
      genAreasLoop g rng n (i + 1) (areas ++ [area]) (seq ++ [area.id]) ao.2.2

/-- Translation of `ClickGenerator.generateClickAreas`. -/
def generateClickAreas (g : ClickGenerator) (numClicks : Nat) (rng : Nat → Int × Int) :
    List ClickArea × List String :=
  let r := genAreasLoop g rng numClicks 0 [] [] 0
  (r.1, r.2.1)

/-- Canvas 400×300, 2–5 clicks, click radius 20 (the engine's defaults). -/
def c4Gen : ClickGenerator := ⟨400, 300, 2, 5, 20⟩

/-- An RNG stream that draws the same position twice, then a far-away
position: the reject-sampling succeeds on its first reposition. -/
def c4Rng : Nat → Int × Int := fun k => if k ≤ 1 then (0, 0) else (100, 100)

/-- Claim C4, evaluated at the failing input: with RNG draws (0,0), (0,0),
(100,100) the reject-sampling succeeds within 50 attempts — avoidOverlap
finds the non-overlapping centre (120,120) after one reposition — yet
the generated challenge places both target centres at (20,20), distance
0 < 2·clickRadius, because the repositioned coordinates are discarded
(Go passes x, y by value and avoidOverlap returns nothing). -/
theorem generateClickAreas_discards_reposition :
    (generateClickAreas c4Gen 2 c4Rng).1.map (fun a => (a.x, a.y)) =
      [(20, 20), (20, 20)] ∧
    avoidOverlap c4Gen c4Rng 50 20 20
      [⟨"area_0", 20, 20, 40, 40, true, "1"⟩] 2 = (120, 120, 3) ∧
    overlapsAny c4Gen 120 120 [⟨"area_0", 20, 20, 40, 40, true, "1"⟩] = false ∧
    distLtTwoRadius c4Gen 20 20 20 20 = true := by
  refine ⟨rfl, rfl, rfl, by decide⟩

end SteelMount
